import Mathlib

/-!
Verification of the PeTar helper script `galpy-interface/galpy_help.py`.

The script inspects the external `galpy` library, discovers supported
potential models, renders a `--type-arg` encoding for each, and optionally
writes a small configuration file.  Everything the script itself computes
(string formatting, filtering, CLI parsing) is embedded below as executable
Lean definitions.  Behaviour of the external library (`galpy.potential`
attributes, `_parse_pot`, `_check_c`, `galpy.potential._dim`, Python `str()`
on argument values, C `%.14g` formatting, `__doc__` strings) is abstracted
into an explicit environment record `Env`, since that code is not part of
this repository.
-/

namespace GalpyHelp

/-! ## Python string primitives -/

/-- Python `pre in s` substring test restricted to prefixes, i.e. `s.startswith(pre)`. -/
def strStartsWith (s pre : String) : Bool :=
  pre.data.isPrefixOf s.data

/-- Python `needle in hay` substring containment test on strings. -/
def pyIn (needle hay : String) : Bool :=
  hay.data.tails.any (fun t => needle.data.isPrefixOf t)

/-- Python `s.endswith(suf)`. -/
def strEndsWith (s suf : String) : Bool :=
  suf.data.isSuffixOf s.data

/-- Python `" "*n`. -/
def spaces (n : Nat) : String :=
  String.mk (List.replicate n ' ')

/-- Python format `'{:30}'.format(s)`: left justify to a minimum width of 30. -/
def fmt30 (s : String) : String :=
  s ++ spaces (30 - s.length)

/-- Python `print(a, b, c)`: arguments joined by a single space (one output line). -/
def pyPrint (parts : List String) : String :=
  String.intercalate " " parts

/-- Comma-joining loop used in `printPotTypeArg`
(`for i in range(n-1): s += x[i]+','` followed by `s += x[-1]`). -/
def commaJoin : List String → String
  | [] => ""
  | [x] => x
  | x :: y :: xs => x ++ "," ++ commaJoin (y :: xs)

/-- Pipe-joining of component encodings, as the spec describes it
("joined with `|`"). -/
def pipeJoin : List String → String
  | [] => ""
  | [x] => x
  | x :: y :: xs => x ++ "|" ++ pipeJoin (y :: xs)

/-- Accumulator form of the `type_arg` concatenation in the list branch of
`printPotTypeArg`: a separator `|` is appended only when the accumulated
string is nonempty. -/
def joinAcc : String → List String → String
  | t, [] => t
  | t, x :: xs => joinAcc ((if t ≠ "" then t ++ "|" else t) ++ x) xs

/-- Splitting a character list at every occurrence of `sep`; always returns at
least one (possibly empty) group. -/
def splitOnChar (sep : Char) : List Char → List (List Char)
  | [] => [[]]
  | c :: cs =>
    match splitOnChar sep cs with
    | [] => [[]]
    | g :: gs => if c = sep then [] :: g :: gs else (c :: g) :: gs

/-- Lines of a file content: the segments between newline characters. -/
def splitNl (s : String) : List String :=
  (splitOnChar '\n' s.data).map String.mk

/-- Whitespace-token view of one line: the nonempty groups between spaces. -/
def spaceTokens (s : String) : List String :=
  ((splitOnChar ' ' s.data).filter (fun g => g ≠ [])).map String.mk

/-- Character lists free of newline and space characters. -/
def cleanChars (l : List Char) : Bool :=
  l.all (fun c => c ≠ '\n' && c ≠ ' ')

/-! ## Data model

A potential value obtained from `galpy.potential` is, for this script,
either an opaque non-list instance (identified here by a tag) or a Python
list of such values. -/

/-- Potential instance: an opaque single instance or a Python list of instances. -/
inductive PotInst where
  | base : Nat → PotInst
  | plist : List PotInst → PotInst
deriving Repr

/-- Result of galpy's `_parse_pot`: a count, a type-code array and an
argument array (argument values of abstract type `α`). -/
structure ParseResult (α : Type) where
  npot : Nat
  pot_type : List Int
  pot_args : List α
deriving Repr

/-- Python exception classes relevant to `getPotInstance`'s `except` clause. -/
inductive ExcClass where
  | valueError
  | typeError
  | attributeError
  | runtimeWarning
  | otherExc
deriving DecidableEq, Repr

/-- Outcome of calling a potential class constructor with default arguments. -/
inductive InstResult where
  | ok : PotInst → InstResult
  | exc : ExcClass → InstResult

/-- Kind of value found under a name of `galpy.potential`: a Python list, a
class (`type`, whose instantiation outcome is recorded), or any other value
(treated by the script as an instance). -/
inductive PyVal where
  | vlist : List PotInst → PyVal
  | vtype : InstResult → PyVal
  | vother : PotInst → PyVal

/-- Environment describing the external galpy library.  `check_c` takes an
`Option PotInst` because the script may call `_check_c(None)`; it returns
`none` when the call raises.  `pyStr` models Python `str()` on argument
values, `fmtG14` models `"%.14g" % x`, `nameOf` models `type(x).__name__`,
`docStr` and `initDocStr` model `__doc__` and `__init__.__doc__`. -/
structure Env (α : Type) where
  dirPot : List String
  attr : String → PyVal
  dim : PotInst → Int
  check_c : Option PotInst → Option Bool
  parsePot : PotInst → ParseResult α
  pyStr : α → String
  fmtG14 : α → String
  nameOf : PotInst → String
  docStr : PotInst → String
  initDocStr : PotInst → String

/-! ## savePotTypeArg -/

/-- Content of the file written by `savePotTypeArg(config_filename, n_pot,
pot_type, pot_arg)`: a `0 <n_pot>` header line, the type codes each followed
by a space, a newline, the arguments formatted with `%.14g` each followed by
a space, and a final newline. -/
def savePotTypeArg (fmtG14 : α → String) (n_pot : Nat) (pot_type : List Int)
    (pot_arg : List α) : String :=
  "0 " ++ toString n_pot ++ "\n" ++
  String.join (pot_type.map (fun item => toString item ++ " ")) ++ "\n" ++
  String.join (pot_arg.map (fun item => fmtG14 item ++ " ")) ++ "\n"

/-! ## printPotTypeArg

The recursive formatter is embedded as `printPotTypeArgCore` (on an actual
instance) together with `goSubs`, the accumulator loop over a component
list.  The result is `none` when the Python code raises `NameError` because
the local variable `type_arg` is read before assignment (this happens in the
non-list branch exactly when `_parse_pot` returns no type code), otherwise
`some (printed lines, type_arg, npot, pot_type, pot_args)`. -/

mutual

/-- Embedding of `printPotTypeArg` on a present (non-`None`) instance. -/
def printPotTypeArgCore (env : Env α) (pot_name : String) (pot_module : Option Unit)
    (pot_instance : PotInst) (print_front_offset : Nat) (print_long_list : Bool) :
    Option (List String × String × Nat × List Int × List α) :=
  match pot_module, pot_instance with
  | none, .plist subs =>
    match goSubs env print_front_offset print_long_list subs ([], "", 0, [], []) with
    | none => none
    | some (outs, type_arg, npot, pot_type, pot_arg) =>
      some (pyPrint [spaces print_front_offset, fmt30 pot_name,
              "a combination of " ++ toString subs.length ++ " potentials:"] ::
            (outs ++ [pyPrint [spaces (print_front_offset+4), fmt30 "Combination: ", type_arg]]),
            type_arg, npot, pot_type, pot_arg)
  | _, inst =>
    let pr := env.parsePot inst
    let pot_args_str := commaJoin (pr.pot_args.map env.pyStr)
    let type_arg : Option String :=
      match pr.pot_type with
      | [] => none
      | [t] => some (toString t ++ ":" ++ pot_args_str)
      | ts => some (commaJoin (ts.map toString) ++ ":" ++ pot_args_str)
    match type_arg with
    | none => none
    | some ta =>
      if pr.pot_args.length > 12 && !print_long_list then
        some ([pyPrint [spaces print_front_offset, fmt30 pot_name,
                "long argument list, require a configure file"]],
              ta, pr.npot, pr.pot_type, pr.pot_args)
      else
        some ([pyPrint [spaces print_front_offset, fmt30 pot_name, ta]],
              ta, pr.npot, pr.pot_type, pr.pot_args)

/-- Accumulator loop of the list branch of `printPotTypeArg`: for each
component the sub-call is made with the class name, a `None` module and an
increased offset, and the results are accumulated exactly as in the source
(`type_arg += "|"` only when the accumulated string is nonempty). -/
def goSubs (env : Env α) (print_front_offset : Nat) (print_long_list : Bool) :
    List PotInst → (List String × String × Nat × List Int × List α) →
    Option (List String × String × Nat × List Int × List α)
  | [], acc => some acc
  | s :: ss, (outs, type_arg, npot, pot_type, pot_arg) =>
    match printPotTypeArgCore env (env.nameOf s) none s (print_front_offset+4) print_long_list with
    | none => none
    | some (out_s, ta_s, n_s, ty_s, ar_s) =>
      goSubs env print_front_offset print_long_list ss
        (outs ++ out_s, (if type_arg ≠ "" then type_arg ++ "|" else type_arg) ++ ta_s,
         npot + n_s, pot_type ++ ty_s, pot_arg ++ ar_s)

end

/-- Embedding of `printPotTypeArg` including the final `return "", 0, ...`
fall-through for a `None` instance. -/
def printPotTypeArg (env : Env α) (pot_name : String) (pot_module : Option Unit)
    (pot_instance : Option PotInst) (print_front_offset : Nat) (print_long_list : Bool) :
    Option (List String × String × Nat × List Int × List α) :=
  match pot_instance with
  | some inst => printPotTypeArgCore env pot_name pot_module inst print_front_offset print_long_list
  | none => some ([], "", 0, [], [])

/-! ## getPotInstance and listPot -/

/-- Exception classes named in the `except` clause of `getPotInstance`. -/
def caught : ExcClass → Bool
  | .otherExc => false
  | _ => true

/-- Embedding of `getPotInstance`.  The outer `Option` is `none` when the
Python call would raise an uncaught exception (an instantiation failure
outside the four caught classes, or `_check_c` raising). -/
def getPotInstance (env : Env α) (pot_name : String) :
    Option (Option Unit × Option PotInst) :=
  if env.dirPot.contains pot_name && pyIn "Potential" pot_name then
    match
      (match env.attr pot_name with
       | .vlist l => some ((none : Option Unit), some (PotInst.plist l))
       | .vtype (.ok inst) => some (some (), some inst)
       | .vtype (.exc c) => if caught c then some (none, none) else none
       | .vother inst => some (some (), some inst)) with
    | none => none
    | some (pot_module, pot_instance) =>
      match pot_instance with
      | some inst =>
        let pi1 : Option PotInst := if env.dim inst ≠ 3 then none else some inst
        match env.check_c pi1 with
        | none => none
        | some b => some (pot_module, if !b then none else pi1)
      | none => some (pot_module, none)
  else some (none, none)

/-- Line printed by `printPotTitle`. -/
def titleLine : String :=
  pyPrint [fmt30 "Potential name",
    " Options for \x27petar --type-arg\x27 with default potential parameters"]

/-- Line printed by `printSpliter`. -/
def spliterLine : String :=
  "----------------------------------------------------------------------------------------------"

/-- Loop body of `listPot` over a list of candidate names. -/
def listPotBody (env : Env α) : List String → Option (List String)
  | [] => some []
  | nm :: rest =>
    match getPotInstance env nm with
    | none => none
    | some (pot_module, pot_instance) =>
      match pot_instance with
      | none => listPotBody env rest
      | some inst =>
        match printPotTypeArg env nm pot_module (some inst) 0 false with
        | none => none
        | some (out, _, _, _, _) => (listPotBody env rest).map (fun ls => out ++ ls)

/-- Output of `listPot()`: title, spliter, then one entry per supported name. -/
def listPotOut (env : Env α) : Option (List String) :=
  (listPotBody env env.dirPot).map (fun body => titleLine :: spliterLine :: body)

/-! ## getopt

Faithful model of CPython `getopt.getopt(args, \x27o:dhl\x27, [\x27help\x27])`:
it stops at the first non-option argument, `--` terminates option parsing,
short options may be clustered, `-o` consumes the rest of its cluster or the
next argument, and long options use unique-prefix matching. -/

/-- CPython `short_has_arg(opt, shortopts)`: `none` when the option character
is unknown, otherwise whether the option takes an argument. -/
def shortHasArg (c : Char) : List Char → Option Bool
  | [] => none
  | x :: rest => if x = c ∧ c ≠ ':' then some (rest.head? = some ':') else shortHasArg c rest

/-- CPython `do_shorts` on one cluster (without the leading dash):
returns the parsed pairs and whether the following argv element was
consumed as an option argument. -/
def doShorts (cluster : List Char) (nextArg : Option String) :
    Except String (List (String × String) × Bool) :=
  match cluster with
  | [] => .ok ([], false)
  | c :: rest =>
    match shortHasArg c "o:dhl".data with
    | none => .error ("option -" ++ String.mk [c] ++ " not recognized")
    | some true =>
      if rest = [] then
        match nextArg with
        | none => .error ("option -" ++ String.mk [c] ++ " requires argument")
        | some a => .ok ([("-" ++ String.mk [c], a)], true)
      else .ok ([("-" ++ String.mk [c], String.mk rest)], false)
    | some false =>
      match doShorts rest nextArg with
      | .error e => .error e
      | .ok (os, used) => .ok (("-" ++ String.mk [c], "") :: os, used)

/-- CPython `long_has_args(opt, longopts)` with unique-prefix matching. -/
def longHasArgs (opt : String) (longopts : List String) : Except String (Bool × String) :=
  let possibilities := longopts.filter (fun o => strStartsWith o opt)
  if possibilities = [] then .error ("option --" ++ opt ++ " not recognized")
  else if possibilities.contains opt then .ok (false, opt)
  else if possibilities.contains (opt ++ "=") then .ok (true, opt)
  else if 1 < possibilities.length then .error ("option --" ++ opt ++ " not a unique prefix")
  else
    match possibilities with
    | u :: _ =>
      if strEndsWith u "=" then .ok (true, String.mk u.data.dropLast) else .ok (false, u)
    | [] => .error ("option --" ++ opt ++ " not recognized")

/-- CPython `do_longs` on one `--option[=value]` body (without the dashes). -/
def doLong (body : List Char) (nextArg : Option String) :
    Except String ((String × String) × Bool) :=
  let optPart := String.mk (body.takeWhile (fun c => c ≠ '='))
  let hasEq := body.contains '='
  let argPart := String.mk ((body.dropWhile (fun c => c ≠ '=')).tail)
  match longHasArgs optPart ["help"] with
  | .error e => .error e
  | .ok (hasArg, optName) =>
    if hasArg then
      if hasEq then .ok (("--" ++ optName, argPart), false)
      else
        match nextArg with
        | none => .error ("option --" ++ optName ++ " requires argument")
        | some a => .ok (("--" ++ optName, a), true)
    else
      if hasEq then .error ("option --" ++ optName ++ " must not have an argument")
      else .ok (("--" ++ optName, ""), false)

/-- CPython `getopt.getopt` main loop for `sys.argv[1:]`.  The
`true, []` branch is unreachable: an option argument is only marked as
consumed when a following argv element existed. -/
def getoptLoop : List String → Except String (List (String × String) × List String)
  | [] => .ok ([], [])
  | a :: rest =>
    if !(strStartsWith a "-") || a == "-" then .ok ([], a :: rest)
    else if a == "--" then .ok ([], rest)
    else
      match (if strStartsWith a "--"
             then (doLong (a.data.drop 2) rest.head?).map (fun pu => ([pu.1], pu.2))
             else doShorts (a.data.drop 1) rest.head?) with
      | .error e => .error e
      | .ok (ps, used) =>
        if used then
          match rest with
          | [] => .error "option argument missing"
          | _ :: rest2 =>
            match getoptLoop rest2 with
            | .error e => .error e
            | .ok (os, rem) => .ok (ps ++ os, rem)
        else
          match getoptLoop rest with
          | .error e => .error e
          | .ok (os, rem) => .ok (ps ++ os, rem)

/-! ## Command line dispatcher -/

/-- Mutable state of the `__main__` block before dispatch. -/
structure OptState where
  print_help_flag : Bool
  config_filename : String
deriving DecidableEq, Repr

/-- Loop `for opt,arg in opts`.  Note the source tests `opt in (\x27-d\x27)`
and `opt in (\x27-o\x27)`, which in Python are substring tests against the
strings `"-d"` and `"-o"` (the parentheses do not build tuples), while
`(\x27-h\x27,\x27--help\x27)` is a real tuple.  `none` models `sys.exit(1)`
after `usage()`. -/
def processOpts : List (String × String) → OptState → Option OptState
  | [], st => some st
  | (opt, arg) :: rest, st =>
    if pyIn opt "-d" then processOpts rest { st with print_help_flag := true }
    else if pyIn opt "-o" then processOpts rest { st with config_filename := arg }
    else if opt == "-h" || opt == "--help" then none
    else processOpts rest st

/-- Lines printed by `usage()`. -/
def usageLines : List String := [
  "A too to show the description of Galpy potential, help to set the parameters of --type-arg in petar commander",
  "Usage: petar.galpy.help [potential name]",
  "       This will show the help of the given potential and also the type index for --type-arg option.",
  "       Without a potential name, all supported potential names in Galpy will be listed.",
  "       For a potential requiring a long argument list, the type and arguments are not printed, use \x27-l\x27 to show that.",
  "       it is suggested to use a configure file to read arguments.",
  "Options: ",
  "    -d         : call Python help function to show the document of a give potential",
  "                 This option only works when a potential name is provided.",
  "    -o [string]: Output the type-arg to a configure file; the argument of this option is the filename",
  "    -h (--help): help"]

/-- Static help text printed when no potential name is given. -/
def introLines : List String := [
  "Here are the description for setup of --galpy-type-arg and --galpy-conf-file for using Galpy in PeTar.",
  "Units: the default arguments in potentials are using the Galpy (natural) unit (velocity in [220 km/s], distance in [8 kpc]).",
  "       If the input particle data have different units, the scaling factor should be properly set.",
  "       For example, when the particle mass is in Msun, then the argument \x27amp\x27 in a Galpy potential can be calculated by G*M*GMscale",
  "       where M is in Msun; G = 0.0044983099795944 [Msun, pc, Myr]; and GMscale = 2.4692087520131e-09  [galpy GM unit] / [pc^3/Myr^2].",
  "--galpy-type-arg: the parameters to set up a set of potentials fixed at the center of the galactic reference frame.",
  "    This is for a quick set-up of potentials. For a more complex and flexible set of potentials, use --galpy-conf-file.",
  "    The format for a combination of the types and arguments of potentials have two styles: (no space in the middle):",
  "       1) [type1]:[arg1-1],[arg1-2],**|[type2]:[arg2-1],[arg2-2],**",
  "       2) [type1],[type2],..:[arg1-1],[arg1-2],[arg2-1],**",
  "       where \x27|\x27 split different potential types;",
  "             \x27:\x27 separates the type indices and the argument list;",
  "             \x27,\x27 separates the items of types or arguments in their lists.",
  "       For example:",
  "          1) --galpy-type-arg 15:0.0299946,1.8,0.2375|5:0.7574802,0.375,0.035|9:4.85223053,2.0",
  "          2) --galpy-type-arg 15,5,9:0.0299946,1.8,0.2375,0.7574802,0.375,0.035,4.85223053,2.0",
  "          both can generate the MWPotential2014 from Galpy (same to --galpy-set MWPotential2014)",
  "       Users can use Galpy (_parse_pot function, see its online manual) to find and configure the types and arguments of potentials.",
  "       The defaults values of types and arguments for supported potentials can be found at the end.",
  "       The potentials defined in --galpy-type-arg and --galpy-set are both added.",
  "       Thus, don\x27t repeat the same potential sets in the two options.",
  "--galpy-conf-file: the configure file containing the parameters for time- and space-dependent potentials.",
  "       Users can add, modify and remove potentials at a given time.",
  "       For each potential, the origin (zero) point can be fixed at the galactic frame or follow the motion of particle system.",
  "       The potential can be also treated as moving object feeling the force from the other potentials and the particle system.",
  "       The configure file contain a group of blocks with update times.",
  "       The format of one block like:",
  "           Time [value (Galpy unit)] Task [task name]",
  "           [parameters]",
  "       Each type of parameter follows its label, like \x27Time [value]\x27.",
  "       Here \x27Time\x27 is the update time of potentials during the simulation.",
  "       The detail of potentials depends on the following \x27Task\x27 and parameters.",
  "       Be careful for the unit conversion of time and parameters between PeTar and Galpy.",
  "       Don\x27t rename, delete or modify the configure file before the simulation ends.",
  "       The format of [parameters] depends on the task name (add, remove, update) shown as following",
  "",
  "       For the task \x27add\x27:",
  "               Nset [number]",
  "               [set 0 content]",
  "               [set 1 content]",
  "               ...",
  "           Nset indicates the number of new potential sets, each set shares the same central position and velocity.",
  "           Each of the following set content contains a few lines of parameters: ",
  "               Set [index]",
  "               Ntype [number] Mode [index]",
  "               Pos [x y z] Vel [vx vy vz]",
  "               Type [type1 type2 ...]",
  "               Arg [arg1-1 arg1-2 ... arg2-1 ...]",
  "               Nchange [number] Index [Arg_index1, Arg_index2, Arg_index3...]",
  "               *ChangeMode [mode1, mode2, mode3...]",
  "               *ChangeRate [rate1, rate2, rate3...]",
  "           The definition of each parameter:",
  "               Ntype: number of potential types",
  "                     If there is no argument, the 4th line (Type ...) is still necessary (empty line).",
  "               Mode: an index to indicate the reference frame for the position and velocity of the potential center:",
  "                     0: The galactic frame",
  "                     1: The particle-system frame; also follow the motion of its center",
  "                     2: The galactic frame, but move based on the forces from other potentials and from the particle system",
  "               Pos, Vel: the initial position and velocity of the potential center [Galpy unit] in the reference frame depended on the Mode.",
  "               Type, Arg: types and arguments of each potential, similar to those in --galpy-type-arg.",
  "                          The number of values in Type line must be Ntype.",
  "               The three lines following \x27Nchange\x27 are options for evolving potential parameters during the simulation.",
  "                  Nchange: number of evolving arguments, if 0, the following two lines (marked with \x27*\x27) are not needed.",
  "                  Arg_index: the indice of arguments to change during simulation (counting from zero based on the \x27Arg\x27 line).",
  "                  ChangeMode: the changing mode for each Arg_index: ",
  "                              1: change the argument linearly;",
  "                              2: change the argument exponentially.",
  "                  ChangeRate: the changing rate for each Arg_index, based on ChangeMode:",
  "                              linearly (1): change value per Galpy time unit;",
  "                              exponentially (2): coefficient \x27a\x27 in the expotential delay or increase form: (exp^\x7ba*t\x7d)",
  "           For example, the configure file of MWPotential2014 with a linearly-mass-decrease Plummer potential following the motion of the particle system (Galpy unit):",
  "                 Time 0.0 Task add                    #[Update at time 0; task is \x27add\x27]",
  "                 Nset 2                               #[2 potential sets]",
  "                 Set 0                                #[Set 0 (MWPotential2014)]",
  "                 Ntype 3 Mode 0                       #[3 potential types for MilkyWay; Mode 0 (galactic frame)]",
  "                 Pos 0.0 0.0 0.0 Vel 0.0 0.0 0.0      #[x, y, z, vx, vy, vz (galactic frame)]",
  "                 Type 15 5 9                          #[3 type indices (MWPotential2014)]",
  "                 Arg 0.029994597188218 1.8 0.2375 0.75748020193716 0.375 0.035 4.852230533528 2.0 #[All arguments for MWPotential2014]",
  "                 Nchange 0                            #[No changing arguments)]",
  "                 Set 1                                #[Set 1 (Plummer)",
  "                 Ntype 1 Mode 1                       #[1 type; Mode 1 (particle-system frame)",
  "                 Pos 0.0 0.0 0.0 Vel 0.0 0.0 0.0      #[x, y, z, vx, vy, vz (particle-system frame)]",
  "                 Type 17                              #[Type index for Plummer]",
  "                 Arg 1.11072675e-8 0.000125           #[Two arguments for Plummer (1000 Msun, 1 pc)",
  "                 Nchange 1 Index 0                    #[1 Changing argument, changing index is mass of Plummer]",
  "                 ChangeMode 1                         #[Linearly change]",
  "                 ChangeRate -1e-9                     #[Reduce 1e-9 (Galpy mass unit) per Galpy time unit)]",
  "           Here the G*M and distance scaling factors are 2.4692087520131e-09 [galpy GM unit] / [pc^3/Myr^2] and 0.000125 [8 kpc] / [pc], respectively;",
  "           Notice that the comments after the symbol # here are for reference, don\x27t write them in the configure file.",
  "       For task \x27update\x27:",
  "           The format is the same as task \x27add\x27.",
  "           Here Nset is the number of potential sets for update.",
  "           For parameters of each set, only the definition of Mode has a small change:",
  "           For update, the mode has four choices instead: 0, 1, 2 and -2:",
  "               0: The potential center is shifted to the new position and velocity (following line) at the galactic frame;",
  "               1: The potential center is shifted to the new position and velocity at the particle-system frame;",
  "               2: The (moving) potential center is shifted to the new position and velocity at the galactic frame;",
  "              -2: The (moving) potential center keeps the original position and velocity, only update potential arguments.",
  "           For example, stop the mass decrease for the Plummer model at time 1 referring to the above instance:",
  "               Time 1.0 Task update",
  "               Nset 1 Index 1      #[only need to change set 1 (Plummer)]",
  "               Set 1",
  "               Ntype 1 Mode 1",
  "               Pos 0.0 0.0 0.0 Vel 0.0 0.0 0.0",
  "               Type 17",
  "               Arg 1.1072675e-9  0.000125",
  "               Nchange 0           #[Stop changing mass]",
  "       For task \x27remove\x27:",
  "               Nset [number] Index [set_index1 set_index2 ...]",
  "           Here Nset is the number of potential sets to be removed, followed by the indices of removing sets.",
  "           For example, remove the Plummer potential at time 2 following the previous instance:",
  "               Time 2.0 Task remove",
  "               Nset 1 Index 1",
  "Users can either use --galpy-type-arg and --galpy-set or --galpy-conf-file. But if both are used, the error will appear.",
  "Here are the supported list of Potentials and their default type indices and arguments:"]

/-- Line printed for an unknown potential name. -/
def notFoundLine (pot_name : String) : String :=
  pyPrint [pot_name,
    " is not found in supported Galpy potential list. Available potentials are:"]

/-- Message printed before writing the configuration file. -/
def saveMsgLine (pot_name config_filename : String) : String :=
  "Save type arguments of " ++ pot_name ++ " to file " ++ config_filename ++ "."

/-- Header of the `-d` documentation block. -/
def classDefLine (pot_name : String) : String :=
  "Class definition of " ++ pot_name ++ " from Galpy:"

/-- Extra comment printed for `KeplerPotential` under `-d`. -/
def keplerNoteLines : List String := [
  "Notice that the Kepler potential is generated from the PowerSphericalPotential (type index: 7) with alpha = 3",
  "Thus, the second argument (alpha) must be 3 "]

/-- Documentation chunks printed under `-d`: for a list instance the doc
strings of each element, otherwise of the instance itself. -/
def docOutput (env : Env α) (inst : PotInst) : List String :=
  match inst with
  | .plist subs => (subs.map (fun s => [env.docStr s, env.initDocStr s])).flatten
  | _ => [env.docStr inst, env.initDocStr inst]

/-- Observable outcome of one run: printed lines, exit code, and the
configuration file written (filename and content), if any. -/
structure MainResult where
  output : List String
  exitCode : Nat
  file : Option (String × String)
deriving Repr

/-- Dispatch of the `__main__` block on the result of `getopt`.  `none`
models the process dying from an uncaught exception. -/
def mainCore (env : Env α) (r : Except String (List (String × String) × List String)) :
    Option MainResult :=
  match r with
  | .error e => some ⟨e :: usageLines, 2, none⟩
  | .ok (opts, remainder) =>
    match processOpts opts ⟨false, ""⟩ with
    | none => some ⟨usageLines, 1, none⟩
    | some st =>
      match remainder with
      | [] => (listPotOut env).map (fun ls => MainResult.mk (introLines ++ ls) 0 none)
      | pot_name :: _ =>
        match getPotInstance env pot_name with
        | none => none
        | some (pot_module, pot_instance) =>
          match pot_instance with
          | none => (listPotOut env).map (fun ls => MainResult.mk (notFoundLine pot_name :: ls) 0 none)
          | some inst =>
            match printPotTypeArg env pot_name pot_module (some inst) 0 false with
            | none => none
            | some (out, _type_arg, n_pot, pot_type, pot_arg) =>
              let saveOut :=
                if st.config_filename == "" then []
                else [saveMsgLine pot_name st.config_filename]
              let fileOut : Option (String × String) :=
                if st.config_filename == "" then none
                else some (st.config_filename, savePotTypeArg env.fmtG14 n_pot pot_type pot_arg)
              let docOut :=
                if st.print_help_flag then
                  classDefLine pot_name :: (docOutput env inst ++
                    (if pot_name == "KeplerPotential" then keplerNoteLines else []))
                else []
              some ⟨titleLine :: (out ++ [spliterLine] ++ saveOut ++ [spliterLine] ++ docOut),
                    0, fileOut⟩

/-- Whole program on `sys.argv[1:]` (assuming the galpy import succeeded). -/
def mainProg (env : Env α) (argv : List String) : Option MainResult :=
  mainCore env (getoptLoop argv)

/-! ## Concrete environments used to evaluate the theorems -/

/-- Library with one supported Kepler-like potential: every non-list value
parses to type code `7` with two default arguments. -/
def envW : Env String where
  dirPot := ["KeplerPotential"]
  attr := fun _ => .vother (.base 0)
  dim := fun _ => 3
  check_c := fun _ => some true
  parsePot := fun _ => ⟨1, [7], ["1.0", "3.0"]⟩
  pyStr := id
  fmtG14 := id
  nameOf := fun _ => "Sub"
  docStr := fun _ => "doc"
  initDocStr := fun _ => "initdoc"

/-- Library whose parse of any instance yields thirteen arguments. -/
def envLong : Env String where
  dirPot := ["LongPotential"]
  attr := fun _ => .vother (.base 0)
  dim := fun _ => 3
  check_c := fun _ => some true
  parsePot := fun _ => ⟨1, [9],
    ["1", "2", "3", "4", "5", "6", "7", "8", "9", "10", "11", "12", "13"]⟩
  pyStr := id
  fmtG14 := id
  nameOf := fun _ => "Sub"
  docStr := fun _ => "doc"
  initDocStr := fun _ => "initdoc"

/-- Library where instantiating the first class raises an exception outside
the four caught classes, while a second name is supported. -/
def envAbort : Env String where
  dirPot := ["AbortPotential", "KeplerPotential"]
  attr := fun nm => if nm = "AbortPotential" then .vtype (.exc .otherExc)
                    else .vother (.base 0)
  dim := fun _ => 3
  check_c := fun _ => some true
  parsePot := fun _ => ⟨1, [7], ["1.0", "3.0"]⟩
  pyStr := id
  fmtG14 := id
  nameOf := fun _ => "Sub"
  docStr := fun _ => "doc"
  initDocStr := fun _ => "initdoc"

/-- Library with a 2-dimensional potential and a `_check_c` that raises when
called on `None`. -/
def envDim2Raise : Env String where
  dirPot := ["FlatPotential"]
  attr := fun _ => .vother (.base 0)
  dim := fun _ => 2
  check_c := fun o => match o with | none => none | some _ => some true
  parsePot := fun _ => ⟨1, [7], ["1.0", "3.0"]⟩
  pyStr := id
  fmtG14 := id
  nameOf := fun _ => "Sub"
  docStr := fun _ => "doc"
  initDocStr := fun _ => "initdoc"

/-- Library with a 2-dimensional potential and a total `_check_c`. -/
def envDim2Total : Env String where
  dirPot := ["FlatPotential"]
  attr := fun _ => .vother (.base 0)
  dim := fun _ => 2
  check_c := fun _ => some true
  parsePot := fun _ => ⟨1, [7], ["1.0", "3.0"]⟩
  pyStr := id
  fmtG14 := id
  nameOf := fun _ => "Sub"
  docStr := fun _ => "doc"
  initDocStr := fun _ => "initdoc"

/-- Library where instantiating the first class raises a `ValueError`
(one of the caught classes), while a second name is supported. -/
def envCaught : Env String where
  dirPot := ["FailPotential", "KeplerPotential"]
  attr := fun nm => if nm = "FailPotential" then .vtype (.exc .valueError)
                    else .vother (.base 0)
  dim := fun _ => 3
  check_c := fun _ => some true
  parsePot := fun _ => ⟨1, [7], ["1.0", "3.0"]⟩
  pyStr := id
  fmtG14 := id
  nameOf := fun _ => "Sub"
  docStr := fun _ => "doc"
  initDocStr := fun _ => "initdoc"

/-- Library where `_parse_pot` returns no type code for any instance. -/
def envNoType : Env String where
  dirPot := ["EmptyPotential"]
  attr := fun _ => .vother (.base 0)
  dim := fun _ => 3
  check_c := fun _ => some true
  parsePot := fun _ => ⟨0, [], ["1.0"]⟩
  pyStr := id
  fmtG14 := id
  nameOf := fun _ => "Sub"
  docStr := fun _ => "doc"
  initDocStr := fun _ => "initdoc"

/-! ## Helper lemmas on decimal renderings -/

theorem digitChar_clean (n : Nat) : Nat.digitChar n ≠ '\n' ∧ Nat.digitChar n ≠ ' ' := by
  rcases Nat.lt_or_ge n 16 with h | h
  · interval_cases n <;> exact ⟨by decide, by decide⟩
  · have e : Nat.digitChar n = '*' := by
      unfold Nat.digitChar
      rw [if_neg (by omega : ¬ n = 0), if_neg (by omega : ¬ n = 1),
        if_neg (by omega : ¬ n = 2), if_neg (by omega : ¬ n = 3),
        if_neg (by omega : ¬ n = 4), if_neg (by omega : ¬ n = 5),
        if_neg (by omega : ¬ n = 6), if_neg (by omega : ¬ n = 7),
        if_neg (by omega : ¬ n = 8), if_neg (by omega : ¬ n = 9),
        if_neg (by omega : ¬ n = 10), if_neg (by omega : ¬ n = 11),
        if_neg (by omega : ¬ n = 12), if_neg (by omega : ¬ n = 13),
        if_neg (by omega : ¬ n = 14), if_neg (by omega : ¬ n = 15)]
    rw [e]
    exact ⟨by decide, by decide⟩

theorem toDigitsCore_clean (b : Nat) : ∀ (fuel n : Nat) (acc : List Char),
    (∀ c ∈ acc, c ≠ '\n' ∧ c ≠ ' ') →
    ∀ c ∈ Nat.toDigitsCore b fuel n acc, c ≠ '\n' ∧ c ≠ ' '
  | 0, n, acc, h => by simp only [Nat.toDigitsCore]; exact h
  | fuel+1, n, acc, h => by
    unfold Nat.toDigitsCore
    dsimp only
    have hacc : ∀ c ∈ (Nat.digitChar (n % b)) :: acc, c ≠ '\n' ∧ c ≠ ' ' := by
      intro c hc
      rcases List.mem_cons.mp hc with h1 | h2
      · subst h1; exact digitChar_clean _
      · exact h c h2
    split
    · exact hacc
    · exact toDigitsCore_clean b fuel _ _ hacc

theorem toDigitsCore_le_length (b : Nat) : ∀ (fuel n : Nat) (acc : List Char),
    acc.length ≤ (Nat.toDigitsCore b fuel n acc).length
  | 0, n, acc => by simp [Nat.toDigitsCore]
  | fuel+1, n, acc => by
    unfold Nat.toDigitsCore
    dsimp only
    split
    · simp
    · calc acc.length ≤ (Nat.digitChar (n % b) :: acc).length := by simp
        _ ≤ _ := toDigitsCore_le_length b fuel _ _

theorem natRepr_clean (n : Nat) : ∀ c ∈ (Nat.repr n).data, c ≠ '\n' ∧ c ≠ ' ' := by
  have e : (Nat.repr n).data = Nat.toDigitsCore 10 (n+1) n [] := rfl
  rw [e]
  exact toDigitsCore_clean 10 (n+1) n [] (by simp)

theorem natRepr_ne_nil (n : Nat) : (Nat.repr n).data ≠ [] := by
  have e : (Nat.repr n).data = Nat.toDigitsCore 10 (n+1) n [] := rfl
  rw [e]
  unfold Nat.toDigitsCore
  dsimp only
  split
  · simp
  · intro h
    have hl := toDigitsCore_le_length 10 n (n / 10) [Nat.digitChar (n % 10)]
    rw [h] at hl
    simp at hl

theorem intStr_clean (i : Int) : ∀ c ∈ (toString i).data, c ≠ '\n' ∧ c ≠ ' ' := by
  cases i with
  | ofNat m => exact natRepr_clean m
  | negSucc m =>
    intro c hc
    have e : (toString (Int.negSucc m)).data = '-' :: (Nat.repr (m+1)).data := rfl
    rw [e] at hc
    rcases List.mem_cons.mp hc with h1 | h2
    · subst h1; exact ⟨by decide, by decide⟩
    · exact natRepr_clean _ c h2

theorem intStr_ne_nil (i : Int) : (toString i).data ≠ [] := by
  cases i with
  | ofNat m => exact natRepr_ne_nil m
  | negSucc m =>
    have e : (toString (Int.negSucc m)).data = '-' :: (Nat.repr (m+1)).data := rfl
    rw [e]
    simp

/-! ## Helper lemmas on splitting -/

theorem strData_append (a b : String) : (a ++ b).data = a.data ++ b.data := rfl

theorem strMk_data (s : String) : String.mk s.data = s := rfl

theorem strJoin_data (l : List String) : (String.join l).data = (l.map String.data).flatten := by
  have gen : ∀ (l : List String) (s : String),
      (List.foldl (fun r t => r ++ t) s l).data = s.data ++ (l.map String.data).flatten := by
    intro l
    induction l with
    | nil => intro s; simp
    | cons x xs ih =>
      intro s
      simp only [List.foldl_cons, List.map_cons, List.flatten_cons]
      rw [ih (s ++ x), strData_append]
      simp
  exact gen l ""

theorem splitOnChar_cons (sep c : Char) (cs : List Char) :
    splitOnChar sep (c :: cs) =
      match splitOnChar sep cs with
      | [] => [[]]
      | g :: gs => if c = sep then [] :: g :: gs else (c :: g) :: gs := rfl

theorem splitOnChar_ne_nil (sep : Char) (l : List Char) : splitOnChar sep l ≠ [] := by
  cases l with
  | nil => simp [splitOnChar]
  | cons c cs =>
    rw [splitOnChar_cons]
    rcases splitOnChar sep cs with _ | ⟨g, gs⟩
    · simp
    · dsimp only
      split <;> simp

theorem splitOnChar_sep_free (sep : Char) (a : List Char) (h : ∀ c ∈ a, c ≠ sep) :
    splitOnChar sep a = [a] := by
  induction a with
  | nil => rfl
  | cons c cs ih =>
    have hc : c ≠ sep := h c (by simp)
    have hcs : ∀ x ∈ cs, x ≠ sep := fun x hx => h x (by simp [hx])
    rw [splitOnChar_cons, ih hcs]
    simp [hc]

theorem splitOnChar_append (sep : Char) (a b : List Char) (h : ∀ c ∈ a, c ≠ sep) :
    splitOnChar sep (a ++ sep :: b) = a :: splitOnChar sep b := by
  induction a with
  | nil =>
    simp only [List.nil_append]
    rw [splitOnChar_cons]
    rcases e : splitOnChar sep b with _ | ⟨g, gs⟩
    · exact absurd e (splitOnChar_ne_nil sep b)
    · simp
  | cons c cs ih =>
    have hc : c ≠ sep := h c (by simp)
    have hcs : ∀ x ∈ cs, x ≠ sep := fun x hx => h x (by simp [hx])
    simp only [List.cons_append]
    rw [splitOnChar_cons, ih hcs]
    simp [hc]

theorem splitOnChar_blocks (sep : Char) (gs : List (List Char))
    (h : ∀ g ∈ gs, ∀ c ∈ g, c ≠ sep) :
    splitOnChar sep ((gs.map (fun g => g ++ [sep])).flatten) = gs ++ [[]] := by
  induction gs with
  | nil => rfl
  | cons g rest ih =>
    have hg : ∀ c ∈ g, c ≠ sep := h g (by simp)
    have hrest : ∀ x ∈ rest, ∀ c ∈ x, c ≠ sep := fun x hx => h x (by simp [hx])
    simp only [List.map_cons, List.flatten_cons, List.append_assoc, List.singleton_append]
    rw [splitOnChar_append sep g _ hg, ih hrest]
    simp

theorem spaceTokens_blocks (gs : List (List Char))
    (h : ∀ g ∈ gs, ∀ c ∈ g, c ≠ ' ')
    (hne : ∀ g ∈ gs, g ≠ []) :
    spaceTokens (String.mk ((gs.map (fun g => g ++ [' '])).flatten)) = gs.map String.mk := by
  unfold spaceTokens
  have e : (String.mk ((gs.map (fun g => g ++ [' '])).flatten)).data
      = (gs.map (fun g => g ++ [' '])).flatten := rfl
  rw [e, splitOnChar_blocks ' ' gs h]
  have efil : (gs ++ [([] : List Char)]).filter (fun g => g ≠ []) = gs := by
    rw [List.filter_append]
    have e1 : gs.filter (fun g => g ≠ []) = gs :=
      List.filter_eq_self.mpr (fun g hg => by simpa using hne g hg)
    have e2 : [([] : List Char)].filter (fun g => g ≠ []) = [] := by simp
    rw [e1, e2, List.append_nil]
  rw [efil]

/-! ## Claim C2 -/

theorem strData_nl : ("\n" : String).data = [Char.ofNat 10] := rfl
theorem strData_space : (" " : String).data = [' '] := rfl
theorem strData_zerosp : ("0 " : String).data = ['0', ' '] := rfl

/-- C2: a call of `savePotTypeArg` with count `n_pot`, `N` type codes and `K`
arguments writes exactly three newline-terminated lines: line 1 is `"0 "`
followed by `n_pot`, the space-separated tokens of line 2 are the `N` type
codes, and the space-separated tokens of line 3 are the `K` arguments, each
rendered by the `%.14g` formatter (modelled abstractly as `fmtG14`, assumed
to produce nonempty tokens without spaces or newlines). -/
theorem savePotTypeArg_file_format {α : Type} (fmtG14 : α → String) (n_pot : Nat)
    (pot_type : List Int) (pot_arg : List α)
    (hfmt : ∀ a ∈ pot_arg, (∀ c ∈ (fmtG14 a).data, c ≠ '\n' ∧ c ≠ ' ') ∧ (fmtG14 a).data ≠ []) :
    splitNl (savePotTypeArg fmtG14 n_pot pot_type pot_arg) =
      ["0 " ++ toString n_pot,
       String.join (pot_type.map (fun item => toString item ++ " ")),
       String.join (pot_arg.map (fun item => fmtG14 item ++ " ")),
       ""] ∧
    spaceTokens (String.join (pot_type.map (fun item => toString item ++ " ")))
      = pot_type.map toString ∧
    spaceTokens (String.join (pot_arg.map (fun item => fmtG14 item ++ " ")))
      = pot_arg.map fmtG14 := by
  have hL2data : (String.join (pot_type.map (fun item => toString item ++ " "))).data
      = ((pot_type.map (fun t => (toString t).data)).map (fun g => g ++ [' '])).flatten := by
    rw [strJoin_data, List.map_map, List.map_map]
    congr 1
  have hL3data : (String.join (pot_arg.map (fun item => fmtG14 item ++ " "))).data
      = ((pot_arg.map (fun a => (fmtG14 a).data)).map (fun g => g ++ [' '])).flatten := by
    rw [strJoin_data, List.map_map, List.map_map]
    congr 1
  have hclean1 : ∀ c ∈ ("0 " ++ toString n_pot).data, c ≠ '\n' := by
    intro c hc
    rw [strData_append] at hc
    rcases List.mem_append.mp hc with h1 | h2
    · rw [strData_zerosp] at h1
      simp only [List.mem_cons, List.not_mem_nil, or_false] at h1
      rcases h1 with rfl | rfl <;> decide
    · exact (natRepr_clean n_pot c h2).1
  have hclean2 : ∀ c ∈ ((pot_type.map (fun t => (toString t).data)).map (fun g => g ++ [' '])).flatten, c ≠ '\n' := by
    intro c hc
    rcases List.mem_flatten.mp hc with ⟨l, hl, hcl⟩
    rcases List.mem_map.mp hl with ⟨g, hg, rfl⟩
    rcases List.mem_map.mp hg with ⟨t, _, rfl⟩
    rcases List.mem_append.mp hcl with h1 | h2
    · exact (intStr_clean t c h1).1
    · simp at h2; subst h2; decide
  have hclean3 : ∀ c ∈ ((pot_arg.map (fun a => (fmtG14 a).data)).map (fun g => g ++ [' '])).flatten, c ≠ '\n' := by
    intro c hc
    rcases List.mem_flatten.mp hc with ⟨l, hl, hcl⟩
    rcases List.mem_map.mp hl with ⟨g, hg, rfl⟩
    rcases List.mem_map.mp hg with ⟨a, ha, rfl⟩
    rcases List.mem_append.mp hcl with h1 | h2
    · exact ((hfmt a ha).1 c h1).1
    · simp at h2; subst h2; decide
  have hcd : (savePotTypeArg fmtG14 n_pot pot_type pot_arg).data
      = ("0 " ++ toString n_pot).data ++ '\n' ::
        (((pot_type.map (fun t => (toString t).data)).map (fun g => g ++ [' '])).flatten ++ '\n' ::
         (((pot_arg.map (fun a => (fmtG14 a).data)).map (fun g => g ++ [' '])).flatten ++ '\n' :: [])) := by
    simp only [savePotTypeArg, strData_append, hL2data, hL3data, strData_nl, strData_zerosp,
      List.append_assoc, List.cons_append, List.singleton_append, List.nil_append]
  refine ⟨?_, ?_, ?_⟩
  · unfold splitNl
    rw [hcd, splitOnChar_append _ _ _ hclean1, splitOnChar_append _ _ _ hclean2,
      splitOnChar_append _ _ _ hclean3]
    have he : splitOnChar '\n' [] = [[]] := rfl
    rw [he]
    simp only [List.map_cons, List.map_nil, strMk_data]
    refine congrArg (fun x => _ :: x) ?_
    rw [← hL2data, ← hL3data, strMk_data, strMk_data]
  · have e2 : String.join (pot_type.map (fun item => toString item ++ " "))
        = String.mk (((pot_type.map (fun t => (toString t).data)).map (fun g => g ++ [' '])).flatten) := by
      rw [← hL2data, strMk_data]
    have hsp : ∀ g ∈ pot_type.map (fun t => (toString t).data), ∀ c ∈ g, c ≠ ' ' := by
      intro g hg
      rcases List.mem_map.mp hg with ⟨t, _, rfl⟩
      intro c hc
      exact (intStr_clean t c hc).2
    have hne : ∀ g ∈ pot_type.map (fun t => (toString t).data), g ≠ [] := by
      intro g hg
      rcases List.mem_map.mp hg with ⟨t, _, rfl⟩
      exact intStr_ne_nil t
    rw [e2, spaceTokens_blocks _ hsp hne, List.map_map]
    apply List.map_congr_left
    intro t _
    exact strMk_data (toString t)
  · have e3 : String.join (pot_arg.map (fun item => fmtG14 item ++ " "))
        = String.mk (((pot_arg.map (fun a => (fmtG14 a).data)).map (fun g => g ++ [' '])).flatten) := by
      rw [← hL3data, strMk_data]
    have hsp : ∀ g ∈ pot_arg.map (fun a => (fmtG14 a).data), ∀ c ∈ g, c ≠ ' ' := by
      intro g hg
      rcases List.mem_map.mp hg with ⟨a, ha, rfl⟩
      intro c hc
      exact ((hfmt a ha).1 c hc).2
    have hne : ∀ g ∈ pot_arg.map (fun a => (fmtG14 a).data), g ≠ [] := by
      intro g hg
      rcases List.mem_map.mp hg with ⟨a, ha, rfl⟩
      exact (hfmt a ha).2
    rw [e3, spaceTokens_blocks _ hsp hne, List.map_map]
    apply List.map_congr_left
    intro a _
    exact strMk_data (fmtG14 a)

/-- Witness for C2: concrete three-line file for two type codes and two arguments. -/
theorem savePotTypeArg_file_format_witness :
    (∀ a ∈ ["1.5", "2e-3"], (∀ c ∈ (id a : String).data, c ≠ '\n' ∧ c ≠ ' ') ∧
      (id a : String).data ≠ []) ∧
    (splitNl (savePotTypeArg (id : String → String) 2 [15, 5] ["1.5", "2e-3"]) =
      ["0 " ++ toString 2,
       String.join (([15, 5] : List Int).map (fun item => toString item ++ " ")),
       String.join ((["1.5", "2e-3"]).map (fun item => id item ++ " ")),
       ""] ∧
     spaceTokens (String.join (([15, 5] : List Int).map (fun item => toString item ++ " ")))
       = ([15, 5] : List Int).map toString ∧
     spaceTokens (String.join ((["1.5", "2e-3"]).map (fun item => id item ++ " ")))
       = (["1.5", "2e-3"]).map id) :=
  ⟨by decide, savePotTypeArg_file_format id 2 [15, 5] ["1.5", "2e-3"] (by decide)⟩

/-! ## Claim C3 -/

theorem printPotTypeArgCore_base (env : Env α) (nm : String) (mo : Option Unit)
    (k : Nat) (off : Nat) (long : Bool) :
    printPotTypeArgCore env nm mo (.base k) off long =
      (match
        (match (env.parsePot (.base k)).pot_type with
         | [] => none
         | [t] => some (toString t ++ ":" ++
             commaJoin ((env.parsePot (.base k)).pot_args.map env.pyStr))
         | ts => some (commaJoin (ts.map toString) ++ ":" ++
             commaJoin ((env.parsePot (.base k)).pot_args.map env.pyStr))) with
       | none => none
       | some ta =>
         if (env.parsePot (.base k)).pot_args.length > 12 && !long then
           some ([pyPrint [spaces off, fmt30 nm, "long argument list, require a configure file"]],
                 ta, (env.parsePot (.base k)).npot, (env.parsePot (.base k)).pot_type,
                 (env.parsePot (.base k)).pot_args)
         else
           some ([pyPrint [spaces off, fmt30 nm, ta]], ta, (env.parsePot (.base k)).npot,
                 (env.parsePot (.base k)).pot_type, (env.parsePot (.base k)).pot_args)) := by
  cases mo <;> rfl

/-- C3: on a non-list instance whose parse yields exactly one type code `t`,
the returned encoding is `str(t) ++ ":" ++ (arguments joined with ",")`;
when the parse yields several type codes, it is the comma-joined type codes,
then `":"`, then the comma-joined arguments. -/
theorem printPotTypeArg_base_encoding (env : Env α) (nm : String) (mo : Option Unit)
    (k : Nat) (off : Nat) (long : Bool) (n : Nat) (args : List α) :
    (∀ t : Int, env.parsePot (.base k) = ⟨n, [t], args⟩ →
      printPotTypeArg env nm mo (some (.base k)) off long =
        some ((if args.length > 12 && !long
               then [pyPrint [spaces off, fmt30 nm, "long argument list, require a configure file"]]
               else [pyPrint [spaces off, fmt30 nm,
                      toString t ++ ":" ++ commaJoin (args.map env.pyStr)]]),
              toString t ++ ":" ++ commaJoin (args.map env.pyStr), n, [t], args)) ∧
    (∀ (t1 t2 : Int) (ts : List Int), env.parsePot (.base k) = ⟨n, t1 :: t2 :: ts, args⟩ →
      printPotTypeArg env nm mo (some (.base k)) off long =
        some ((if args.length > 12 && !long
               then [pyPrint [spaces off, fmt30 nm, "long argument list, require a configure file"]]
               else [pyPrint [spaces off, fmt30 nm,
                      commaJoin ((t1 :: t2 :: ts).map toString) ++ ":" ++
                        commaJoin (args.map env.pyStr)]]),
              commaJoin ((t1 :: t2 :: ts).map toString) ++ ":" ++
                commaJoin (args.map env.pyStr), n, t1 :: t2 :: ts, args)) := by
  constructor
  · intro t hp
    show printPotTypeArgCore env nm mo (.base k) off long = _
    rw [printPotTypeArgCore_base, hp]
    dsimp only
    split <;> rfl
  · intro t1 t2 ts hp
    show printPotTypeArgCore env nm mo (.base k) off long = _
    rw [printPotTypeArgCore_base, hp]
    dsimp only
    split <;> rfl

/-- Witness for C3: in the sample library the Kepler-like instance encodes as
`7:1.0,3.0`. -/
theorem printPotTypeArg_base_encoding_witness :
    envW.parsePot (.base 0) = ⟨1, [7], ["1.0", "3.0"]⟩ ∧
    printPotTypeArg envW "KeplerPotential" (some ()) (some (.base 0)) 0 false =
      some ((if (["1.0", "3.0"] : List String).length > 12 && !false
             then [pyPrint [spaces 0, fmt30 "KeplerPotential",
                    "long argument list, require a configure file"]]
             else [pyPrint [spaces 0, fmt30 "KeplerPotential",
                    toString (7 : Int) ++ ":" ++ commaJoin ((["1.0", "3.0"] : List String).map envW.pyStr)]]),
            toString (7 : Int) ++ ":" ++ commaJoin ((["1.0", "3.0"] : List String).map envW.pyStr),
            1, [(7 : Int)], ["1.0", "3.0"]) :=
  ⟨rfl, (printPotTypeArg_base_encoding envW "KeplerPotential" (some ()) 0 0 false 1
    ["1.0", "3.0"]).1 7 rfl⟩

/-! ## Claim C8 -/

/-- C8: on a non-list instance the function is only well defined when the
external parser returns at least one type code: with an empty type list (and
at most 12 arguments) the local `type_arg` is read before assignment, so the
embedded function returns `none` (the Python `NameError`); conversely any
defined result implies a nonempty type list. -/
theorem printPotTypeArg_empty_types (env : Env α) (nm : String) (mo : Option Unit)
    (k : Nat) (off : Nat) (long : Bool) :
    ((env.parsePot (.base k)).pot_type = [] →
      (env.parsePot (.base k)).pot_args.length ≤ 12 →
      printPotTypeArg env nm mo (some (.base k)) off long = none) ∧
    (∀ r, printPotTypeArg env nm mo (some (.base k)) off long = some r →
      (env.parsePot (.base k)).pot_type ≠ []) := by
  constructor
  · intro he _
    show printPotTypeArgCore env nm mo (.base k) off long = none
    rw [printPotTypeArgCore_base, he]
  · intro r hr he
    rw [show printPotTypeArg env nm mo (some (.base k)) off long
          = printPotTypeArgCore env nm mo (.base k) off long from rfl,
      printPotTypeArgCore_base, he] at hr
    exact Option.noConfusion hr

/-- Witness for C8: a library whose parser returns no type code makes the
formatter raise. -/
theorem printPotTypeArg_empty_types_witness :
    (envNoType.parsePot (.base 0)).pot_type = [] ∧
    (envNoType.parsePot (.base 0)).pot_args.length ≤ 12 ∧
    printPotTypeArg envNoType "EmptyPotential" (some ()) (some (.base 0)) 0 false = none :=
  ⟨rfl, by decide,
    (printPotTypeArg_empty_types envNoType "EmptyPotential" (some ()) 0 0 false).1 rfl (by decide)⟩


/-! ## Claim C10 -/

theorem processOpts_skip_l : ∀ (o1 o2 : List (String × String)) (a : String) (st : OptState),
    processOpts (o1 ++ ("-l", a) :: o2) st = processOpts (o1 ++ o2) st := by
  intro o1
  induction o1 with
  | nil =>
    intro o2 a st
    simp only [List.nil_append, processOpts]
    rw [if_neg (by decide : ¬ (pyIn "-l" "-d" = true)),
      if_neg (by decide : ¬ (pyIn "-l" "-o" = true)),
      if_neg (by decide : ¬ (("-l" == "-h" || "-l" == "--help") = true))]
  | cons p rest ih =>
    intro o2 a st
    obtain ⟨opt, arg⟩ := p
    simp only [List.cons_append, processOpts]
    split_ifs <;> first | apply ih | rfl

/-- C10: the option parser accepts `-l` (with an empty argument) but the
dispatcher binds no handler to it, so the program behaves identically with
and without a parsed `-l`; `print_long_list` is never enabled from the
command line (the dispatcher always calls the formatter with
`print_long_list = False`), so a potential with more than 12 arguments
always prints the long-argument-list placeholder instead of its encoding. -/
theorem minus_l_flag_ignored (α : Type) :
    getoptLoop ["-l"] = .ok ([("-l", "")], []) ∧
    (∀ (env : Env α) (o1 o2 : List (String × String)) (a : String) (rem : List String),
       mainCore env (.ok (o1 ++ ("-l", a) :: o2, rem)) = mainCore env (.ok (o1 ++ o2, rem))) ∧
    (∀ (env : Env α) (nm : String) (mo : Option Unit) (k : Nat) (off : Nat) (n : Nat)
       (t : Int) (ts : List Int) (args : List α),
       env.parsePot (.base k) = ⟨n, t :: ts, args⟩ → args.length > 12 →
       ∃ ta, printPotTypeArg env nm mo (some (.base k)) off false =
         some ([pyPrint [spaces off, fmt30 nm, "long argument list, require a configure file"]],
               ta, n, t :: ts, args)) := by
  refine ⟨rfl, ?_, ?_⟩
  · intro env o1 o2 a rem
    simp only [mainCore, processOpts_skip_l]
  · intro env nm mo k off n t ts args hp hlen
    show ∃ ta, printPotTypeArgCore env nm mo (.base k) off false = _
    rw [printPotTypeArgCore_base, hp]
    dsimp only
    rcases ts with _ | ⟨t2, ts⟩
    · exact ⟨_, by dsimp only; rw [if_pos (by simp [hlen])]⟩
    · exact ⟨_, by dsimp only; rw [if_pos (by simp [hlen])]⟩

/-- Witness for C10 at concrete inputs: `-l` parses, dropping it from the
parsed options leaves the run unchanged, and a 13-argument potential prints
the placeholder. -/
theorem minus_l_flag_ignored_witness :
    getoptLoop ["-l"] = .ok ([("-l", "")], []) ∧
    mainCore envW (.ok ([("-d", "")] ++ ("-l", "") :: [], ["KeplerPotential"])) =
      mainCore envW (.ok ([("-d", "")] ++ [], ["KeplerPotential"])) ∧
    envLong.parsePot (.base 0) = ⟨1, [9],
      ["1", "2", "3", "4", "5", "6", "7", "8", "9", "10", "11", "12", "13"]⟩ ∧
    (["1", "2", "3", "4", "5", "6", "7", "8", "9", "10", "11", "12", "13"] : List String).length > 12 ∧
    (∃ ta, printPotTypeArg envLong "LongPotential" (some ()) (some (.base 0)) 0 false =
       some ([pyPrint [spaces 0, fmt30 "LongPotential",
               "long argument list, require a configure file"]],
             ta, 1, [9],
             ["1", "2", "3", "4", "5", "6", "7", "8", "9", "10", "11", "12", "13"])) :=
  ⟨(minus_l_flag_ignored String).1,
   (minus_l_flag_ignored String).2.1 envW [("-d", "")] [] "" ["KeplerPotential"],
   rfl, by decide,
   (minus_l_flag_ignored String).2.2 envLong "LongPotential" (some ()) 0 0 1 9 []
     ["1", "2", "3", "4", "5", "6", "7", "8", "9", "10", "11", "12", "13"] rfl (by decide)⟩


/-! ## Claim C4 -/

/-- C4: whenever `getPotInstance` reports a supported instance, that instance
passed both probes: its dimensionality is 3 and the native-support probe
returned true; hence no non-3D model and no model without a fast native
evaluation path is ever treated as supported. -/
theorem getPotInstance_supported_filters (env : Env α) (nm : String) (mo : Option Unit)
    (i : PotInst) (h : getPotInstance env nm = some (mo, some i)) :
    env.dim i = 3 ∧ env.check_c (some i) = some true := by
  unfold getPotInstance at h
  split at h
  · split at h
    · exact Option.noConfusion h
    · next m pi heq =>
      cases pi with
      | none => simp at h
      | some inst =>
        dsimp only at h
        rcases e : env.check_c (if env.dim inst ≠ 3 then none else some inst) with _ | b
        · simp only [e] at h
          exact Option.noConfusion h
        · simp only [e] at h
          have h2 : (if !b then none else if env.dim inst ≠ 3 then none else some inst) =
              some i := congrArg Prod.snd (Option.some.inj h)
          by_cases hb : b
          · rw [hb] at h2 e
            simp only [Bool.not_true, Bool.false_eq_true, if_false] at h2
            by_cases hd : env.dim inst ≠ 3
            · rw [if_pos hd] at h2
              exact Option.noConfusion h2
            · rw [if_neg hd] at h2
              obtain rfl : inst = i := Option.some.inj h2
              rw [if_neg hd] at e
              exact ⟨not_ne_iff.mp hd, e⟩
          · have hb' : b = false := by simpa using hb
            rw [hb'] at h2
            simp at h2
  · simp at h

/-- Witness for C4: in the sample library the supported Kepler-like
potential is 3-dimensional with native support. -/
theorem getPotInstance_supported_filters_witness :
    getPotInstance envW "KeplerPotential" = some (some (), some (.base 0)) ∧
    envW.dim (.base 0) = 3 ∧ envW.check_c (some (.base 0)) = some true :=
  ⟨rfl, getPotInstance_supported_filters envW "KeplerPotential" (some ()) (.base 0) rfl⟩

/-! ## Claim C9 -/

/-- C9: the two support filters are not short-circuited: when the
dimensionality probe rejects the instance, `_check_c` is still applied to the
now-`None` instance, so the call only completes if `_check_c` is defined on
`None` (and then the instance result is `None` either way). -/
theorem getPotInstance_checkc_on_none (env : Env α) (nm : String) (i : PotInst)
    (hdir : env.dirPot.contains nm = true) (hpot : pyIn "Potential" nm = true)
    (hattr : env.attr nm = .vother i) (hdim : env.dim i ≠ 3) :
    (env.check_c none = none → getPotInstance env nm = none) ∧
    (∀ b, env.check_c none = some b → getPotInstance env nm = some (some (), none)) := by
  constructor
  · intro hc
    unfold getPotInstance
    rw [if_pos (by rw [hdir, hpot]; rfl)]
    simp only [hattr]
    rw [if_pos hdim, hc]
  · intro b hc
    unfold getPotInstance
    rw [if_pos (by rw [hdir, hpot]; rfl)]
    simp only [hattr]
    rw [if_pos hdim, hc]
    cases b <;> rfl

/-- Witness for C9: a 2-dimensional model makes the run die when `_check_c`
raises on `None`, and succeed (with an unsupported result) when it does not. -/
theorem getPotInstance_checkc_on_none_witness :
    getPotInstance envDim2Raise "FlatPotential" = none ∧
    getPotInstance envDim2Total "FlatPotential" = some (some (), none) :=
  ⟨(getPotInstance_checkc_on_none envDim2Raise "FlatPotential" (.base 0) rfl (by decide)
      rfl (by decide)).1 rfl,
   (getPotInstance_checkc_on_none envDim2Total "FlatPotential" (.base 0) rfl (by decide)
      rfl (by decide)).2 true rfl⟩


/-! ## Claim C5 -/

theorem processOpts_help (opts : List (String × String)) :
    ∀ st : OptState, (("-h", "") ∈ opts ∨ ("--help", "") ∈ opts) → processOpts opts st = none := by
  induction opts with
  | nil =>
    intro st h
    rcases h with h | h <;> simp at h
  | cons p rest ih =>
    intro st h
    obtain ⟨opt, arg⟩ := p
    have hcases : (opt, arg) = ("-h", "") ∨ (opt, arg) = ("--help", "") ∨
        (("-h", "") ∈ rest ∨ ("--help", "") ∈ rest) := by
      rcases h with h | h <;> rcases List.mem_cons.mp h with heq | hmem
      · exact Or.inl heq.symm
      · exact Or.inr (Or.inr (Or.inl hmem))
      · exact Or.inr (Or.inl heq.symm)
      · exact Or.inr (Or.inr (Or.inr hmem))
    rcases hcases with heq | heq | hmem
    · injection heq with e1 e2
      subst e1
      simp only [processOpts]
      rw [if_neg (by decide), if_neg (by decide), if_pos (by decide)]
    · injection heq with e1 e2
      subst e1
      simp only [processOpts]
      rw [if_neg (by decide), if_neg (by decide), if_pos (by decide)]
    · simp only [processOpts]
      split_ifs <;> first | rfl | exact ih _ hmem

/-- C5: if the parsed options contain `-h` or `--help`, the program prints
exactly the usage text and exits with code 1; the result does not depend on
the library environment at all, so no potential lookup or discovery happens,
whatever other valid flags were given. -/
theorem main_help_exits (env : Env α) (argv : List String) (opts : List (String × String))
    (rem : List String) (h1 : getoptLoop argv = .ok (opts, rem))
    (h2 : ("-h", "") ∈ opts ∨ ("--help", "") ∈ opts) :
    mainProg env argv = some ⟨usageLines, 1, none⟩ := by
  unfold mainProg
  rw [h1]
  unfold mainCore
  dsimp only
  rw [processOpts_help opts ⟨false, ""⟩ h2]

/-- Witness for C5: `-d -h` exits with the usage text before any lookup. -/
theorem main_help_exits_witness :
    getoptLoop ["-d", "-h"] = .ok ([("-d", ""), ("-h", "")], []) ∧
    mainProg envW ["-d", "-h"] = some ⟨usageLines, 1, none⟩ :=
  ⟨rfl, main_help_exits envW ["-d", "-h"] [("-d", ""), ("-h", "")] [] rfl
    (Or.inl (by decide))⟩

/-! ## Claim C7 -/

/-- C7 counterexample: an instantiation failure raising an exception outside
the four caught classes is not caught: it aborts `getPotInstance` and the
whole discovery scan, although a later candidate was supported. -/
theorem instantiation_failure_aborts_scan :
    envAbort.attr "AbortPotential" = .vtype (.exc .otherExc) ∧
    getPotInstance envAbort "AbortPotential" = none ∧
    getPotInstance envAbort "KeplerPotential" = some (some (), some (.base 0)) ∧
    listPotOut envAbort = none :=
  ⟨rfl, rfl, rfl, rfl⟩

/-- C7 (amended): an instantiation failure of one of the four caught classes
(`ValueError`, `TypeError`, `AttributeError`, `RuntimeWarning`) is caught and
downgrades only that candidate to unsupported (both returned values `None`),
and the scan of the remaining names continues exactly as if the candidate
were absent; a failure outside those classes propagates and aborts the scan
(see the counterexample). -/
theorem caught_instantiation_failure_skips (env : Env α) (nm : String) (c : ExcClass)
    (hc : caught c = true) (hattr : env.attr nm = .vtype (.exc c)) :
    getPotInstance env nm = some (none, none) ∧
    (∀ names1 names2, listPotBody env (names1 ++ nm :: names2) =
       listPotBody env (names1 ++ names2)) := by
  have hg : getPotInstance env nm = some (none, none) := by
    unfold getPotInstance
    split
    · simp only [hattr]
      rw [if_pos hc]
    · rfl
  refine ⟨hg, ?_⟩
  intro names1 names2
  induction names1 with
  | nil =>
    simp only [List.nil_append, listPotBody, hg]
  | cons x xs ih =>
    rcases hgx : getPotInstance env x with _ | ⟨m, pi⟩
    · simp only [List.cons_append, listPotBody, hgx]
    · rcases pi with _ | inst
      · simp only [List.cons_append, listPotBody, hgx]
        exact ih
      · rcases hpx : printPotTypeArg env x m (some inst) 0 false with _ | r
        · simp only [List.cons_append, listPotBody, hgx, hpx]
        · obtain ⟨out, rest⟩ := r
          simp only [List.cons_append, listPotBody, hgx, hpx]
          exact congrArg (Option.map fun ls => out ++ ls) ih

/-- Witness for C7: a `ValueError` during instantiation downgrades just that
candidate and the scan output equals the scan without it. -/
theorem caught_instantiation_failure_skips_witness :
    caught .valueError = true ∧
    envCaught.attr "FailPotential" = .vtype (.exc .valueError) ∧
    getPotInstance envCaught "FailPotential" = some (none, none) ∧
    listPotBody envCaught ([] ++ "FailPotential" :: ["KeplerPotential"]) =
      listPotBody envCaught ([] ++ ["KeplerPotential"]) :=
  ⟨rfl, rfl,
   (caught_instantiation_failure_skips envCaught "FailPotential" .valueError rfl rfl).1,
   (caught_instantiation_failure_skips envCaught "FailPotential" .valueError rfl rfl).2
     [] ["KeplerPotential"]⟩


/-! ## Claim C6 -/

theorem listPotBody_infix (env : Env α) :
    ∀ (names : List String) (nm : String) (m : Option Unit) (i : PotInst) (ls : List String),
      nm ∈ names → getPotInstance env nm = some (m, some i) →
      listPotBody env names = some ls →
      ∃ out r, printPotTypeArg env nm m (some i) 0 false = some (out, r) ∧ out <:+: ls := by
  intro names
  induction names with
  | nil =>
    intro nm m i ls hmem
    simp at hmem
  | cons x xs ih =>
    intro nm m i ls hmem hg hbody
    rcases List.mem_cons.mp hmem with rfl | hmem2
    · simp only [listPotBody, hg] at hbody
      rcases hpx : printPotTypeArg env nm m (some i) 0 false with _ | r
      · simp only [hpx] at hbody
        exact Option.noConfusion hbody
      · obtain ⟨out, r⟩ := r
        simp only [hpx] at hbody
        rcases hls2 : listPotBody env xs with _ | ls2
        · rw [hls2] at hbody
          exact Option.noConfusion hbody
        · rw [hls2] at hbody
          simp only [Option.map_some'] at hbody
          obtain rfl : out ++ ls2 = ls := Option.some.inj hbody
          exact ⟨out, r, rfl, (out.prefix_append ls2).isInfix⟩
    · rcases hgx : getPotInstance env x with _ | mp
      · simp only [listPotBody, hgx] at hbody
        exact Option.noConfusion hbody
      · obtain ⟨m2, pi⟩ := mp
        rcases pi with _ | inst
        · simp only [listPotBody, hgx] at hbody
          exact ih nm m i ls hmem2 hg hbody
        · simp only [listPotBody, hgx] at hbody
          rcases hpx : printPotTypeArg env x m2 (some inst) 0 false with _ | r
          · simp only [hpx] at hbody
            exact Option.noConfusion hbody
          · obtain ⟨out2, r2⟩ := r
            simp only [hpx] at hbody
            rcases hls2 : listPotBody env xs with _ | ls2
            · rw [hls2] at hbody
              exact Option.noConfusion hbody
            · rw [hls2] at hbody
              simp only [Option.map_some'] at hbody
              obtain rfl : out2 ++ ls2 = ls := Option.some.inj hbody
              obtain ⟨out, r, hpr, hinf⟩ := ih nm m i ls2 hmem2 hg hls2
              exact ⟨out, r, hpr, hinf.trans (List.suffix_append out2 ls2).isInfix⟩

/-- C6: when the positional name resolves to no supported instance, the
program prints the not-found line naming it, followed by the full listing of
supported potentials, and (when the listing completes) exits with code 0;
and every supported name of the library appears in that listing with the
lines printed by its formatter (which carry its encoding). -/
theorem main_not_found_lists_all (env : Env α) (argv : List String)
    (opts : List (String × String)) (pot_name : String) (rest : List String)
    (st : OptState) (m : Option Unit)
    (h1 : getoptLoop argv = .ok (opts, pot_name :: rest))
    (h2 : processOpts opts ⟨false, ""⟩ = some st)
    (h3 : getPotInstance env pot_name = some (m, none)) :
    mainProg env argv =
      (listPotOut env).map (fun ls => MainResult.mk (notFoundLine pot_name :: ls) 0 none) ∧
    (∀ ls, listPotOut env = some ls →
       ∀ (nm : String) (m2 : Option Unit) (i : PotInst), nm ∈ env.dirPot →
         getPotInstance env nm = some (m2, some i) →
         ∃ out r, printPotTypeArg env nm m2 (some i) 0 false = some (out, r) ∧ out <:+: ls) := by
  constructor
  · unfold mainProg
    rw [h1]
    unfold mainCore
    dsimp only
    simp only [h2]
    simp only [h3]
  · intro ls hout nm m2 i hmem hg
    unfold listPotOut at hout
    rcases hbody : listPotBody env env.dirPot with _ | body
    · rw [hbody] at hout
      exact Option.noConfusion hout
    · rw [hbody] at hout
      simp only [Option.map_some'] at hout
      obtain rfl : titleLine :: spliterLine :: body = ls := Option.some.inj hout
      obtain ⟨out, r, hpr, hinf⟩ := listPotBody_infix env env.dirPot nm m2 i body hmem hg hbody
      exact ⟨out, r, hpr,
        hinf.trans (List.suffix_append [titleLine, spliterLine] body).isInfix⟩

/-- Witness for C6: an unknown name yields the not-found line followed by the
listing, with exit code 0. -/
theorem main_not_found_lists_all_witness :
    getoptLoop ["NoSuchPotential"] = .ok ([], ["NoSuchPotential"]) ∧
    processOpts [] ⟨false, ""⟩ = some ⟨false, ""⟩ ∧
    getPotInstance envW "NoSuchPotential" = some (none, none) ∧
    mainProg envW ["NoSuchPotential"] =
      (listPotOut envW).map (fun ls => MainResult.mk (notFoundLine "NoSuchPotential" :: ls) 0 none) :=
  ⟨rfl, rfl, rfl,
   (main_not_found_lists_all envW ["NoSuchPotential"] [] "NoSuchPotential" [] ⟨false, ""⟩
     none rfl rfl rfl).1⟩


/-! ## Claim C1 -/

theorem strAppend_ne_empty_left (a b : String) (h : a ≠ "") : a ++ b ≠ "" := by
  intro he
  apply h
  have hd : (a ++ b).data = ("" : String).data := congrArg String.data he
  rw [strData_append] at hd
  have : a.data = [] ∧ b.data = [] := List.append_eq_nil.mp hd
  exact String.ext this.1

theorem joinAcc_pipe : ∀ (xs : List String) (t : String), t ≠ "" → (∀ x ∈ xs, x ≠ "") →
    joinAcc t xs = pipeJoin (t :: xs) := by
  intro xs
  induction xs with
  | nil => intro t ht hxs; rfl
  | cons x xs2 ih =>
    intro t ht hxs
    have hx : x ≠ "" := hxs x (by simp)
    show joinAcc ((if t ≠ "" then t ++ "|" else t) ++ x) xs2 = pipeJoin (t :: x :: xs2)
    rw [if_pos ht]
    rw [ih (t ++ "|" ++ x)
      (strAppend_ne_empty_left _ _ (strAppend_ne_empty_left _ _ ht))
      (fun y hy => hxs y (by simp [hy]))]
    cases xs2 with
    | nil => rfl
    | cons y ys =>
      show (t ++ "|" ++ x) ++ "|" ++ pipeJoin (y :: ys) =
        t ++ "|" ++ (x ++ "|" ++ pipeJoin (y :: ys))
      simp [String.append_assoc]

theorem joinAcc_pipe_empty_start (xs : List String) (h : ∀ x ∈ xs, x ≠ "") :
    joinAcc "" xs = pipeJoin xs := by
  cases xs with
  | nil => rfl
  | cons x xs2 =>
    show joinAcc ((if ("" : String) ≠ "" then "" ++ "|" else "") ++ x) xs2 = pipeJoin (x :: xs2)
    rw [if_neg (by simp), String.empty_append]
    cases xs2 with
    | nil => rfl
    | cons y ys =>
      exact joinAcc_pipe (y :: ys) x (h x (by simp)) (fun z hz => h z (by simp [hz]))

theorem goSubs_eval (env : Env α) (off : Nat) (long : Bool)
    (outF : PotInst → List String) (taF : PotInst → String) (nF : PotInst → Nat)
    (tyF : PotInst → List Int) (arF : PotInst → List α) :
    ∀ (subs : List PotInst) (outs : List String) (ta : String) (np : Nat)
      (ty : List Int) (ar : List α),
      (∀ s ∈ subs, printPotTypeArgCore env (env.nameOf s) none s (off+4) long =
         some (outF s, taF s, nF s, tyF s, arF s)) →
      goSubs env off long subs (outs, ta, np, ty, ar) =
        some (outs ++ (subs.map outF).flatten, joinAcc ta (subs.map taF),
              np + (subs.map nF).sum, ty ++ (subs.map tyF).flatten,
              ar ++ (subs.map arF).flatten) := by
  intro subs
  induction subs with
  | nil =>
    intro outs ta np ty ar hall
    simp [goSubs, joinAcc]
  | cons s ss ih =>
    intro outs ta np ty ar hall
    have hs := hall s (by simp)
    simp only [goSubs, hs]
    rw [ih _ _ _ _ _ (fun x hx => hall x (by simp [hx]))]
    simp only [List.map_cons, List.flatten_cons, List.sum_cons, joinAcc]
    rw [List.append_assoc, List.append_assoc, List.append_assoc]
    have hnp : np + nF s + (ss.map nF).sum = np + (nF s + (ss.map nF).sum) :=
      Nat.add_assoc _ _ _
    rw [hnp]

/-- C1 counterexample: for the list instance `[[], base]` the first
component's encoding is empty, so the combined encoding is not the
pipe-join of the component encodings (the leading `|` is missing). -/
theorem printPotTypeArg_pipe_counterexample :
    (printPotTypeArg envW "Sub" none (some (.plist [])) 0 false).map (fun r => r.2.1)
      = some "" ∧
    (printPotTypeArg envW "Sub" none (some (.base 0)) 0 false).map (fun r => r.2.1)
      = some "7:1.0,3.0" ∧
    (printPotTypeArg envW "Combo" none (some (.plist [.plist [], .base 0])) 0 false).map
        (fun r => r.2.1) = some "7:1.0,3.0" ∧
    pipeJoin ["", "7:1.0,3.0"] = "|7:1.0,3.0" ∧
    ("7:1.0,3.0" : String) ≠ "|7:1.0,3.0" :=
  ⟨rfl, rfl, rfl, rfl, by decide⟩

/-- C1 (amended): for a list instance whose components all have nonempty
encodings, the returned encoding is the components' encodings joined with
`|` in original list order (in general a `|` is inserted only when the
accumulated encoding is already nonempty, so components with empty encodings
do not contribute a separator — see the counterexample); the returned count
is the sum of the component counts, and the returned type and argument lists
are the concatenations of the component lists in the same order. -/
theorem printPotTypeArg_list_concat (env : Env α) (nm : String) (off : Nat) (long : Bool)
    (subs : List PotInst) (outF : PotInst → List String) (taF : PotInst → String)
    (nF : PotInst → Nat) (tyF : PotInst → List Int) (arF : PotInst → List α)
    (hall : ∀ s ∈ subs, printPotTypeArgCore env (env.nameOf s) none s (off+4) long =
       some (outF s, taF s, nF s, tyF s, arF s))
    (hne : ∀ s ∈ subs, taF s ≠ "") :
    printPotTypeArg env nm none (some (.plist subs)) off long =
      some (pyPrint [spaces off, fmt30 nm,
              "a combination of " ++ toString subs.length ++ " potentials:"] ::
            ((subs.map outF).flatten ++
             [pyPrint [spaces (off+4), fmt30 "Combination: ", pipeJoin (subs.map taF)]]),
            pipeJoin (subs.map taF), (subs.map nF).sum, (subs.map tyF).flatten,
            (subs.map arF).flatten) := by
  have hgo := goSubs_eval env off long outF taF nF tyF arF subs [] "" 0 [] [] hall
  have hpipe : joinAcc "" (subs.map taF) = pipeJoin (subs.map taF) :=
    joinAcc_pipe_empty_start _ (fun x hx => by
      rcases List.mem_map.mp hx with ⟨s, hs, rfl⟩
      exact hne s hs)
  show printPotTypeArgCore env nm none (.plist subs) off long = _
  rw [show printPotTypeArgCore env nm none (.plist subs) off long =
        (match goSubs env off long subs ([], "", 0, [], []) with
         | none => none
         | some (outs, type_arg, npot, pot_type, pot_arg) =>
           some (pyPrint [spaces off, fmt30 nm,
                   "a combination of " ++ toString subs.length ++ " potentials:"] ::
                 (outs ++ [pyPrint [spaces (off+4), fmt30 "Combination: ", type_arg]]),
                 type_arg, npot, pot_type, pot_arg)) from rfl,
    hgo]
  simp only [List.nil_append, Nat.zero_add, hpipe]

/-- Witness for C1 at a two-component combination with nonempty encodings. -/
theorem printPotTypeArg_list_concat_witness :
    (∀ s ∈ [PotInst.base 0, PotInst.base 1],
       printPotTypeArgCore envW (envW.nameOf s) none s (0+4) false =
         some ([pyPrint [spaces 4, fmt30 "Sub", "7:1.0,3.0"]], "7:1.0,3.0", 1, [7],
               ["1.0", "3.0"])) ∧
    printPotTypeArg envW "Combo" none (some (.plist [PotInst.base 0, PotInst.base 1])) 0 false =
      some (pyPrint [spaces 0, fmt30 "Combo",
              "a combination of " ++ toString ([PotInst.base 0, PotInst.base 1]).length ++
                " potentials:"] ::
            ((([PotInst.base 0, PotInst.base 1]).map
                (fun _ => [pyPrint [spaces 4, fmt30 "Sub", "7:1.0,3.0"]])).flatten ++
             [pyPrint [spaces (0+4), fmt30 "Combination: ",
                pipeJoin (([PotInst.base 0, PotInst.base 1]).map (fun _ => "7:1.0,3.0"))]]),
            pipeJoin (([PotInst.base 0, PotInst.base 1]).map (fun _ => "7:1.0,3.0")),
            (([PotInst.base 0, PotInst.base 1]).map (fun _ => 1)).sum,
            (([PotInst.base 0, PotInst.base 1]).map (fun _ => ([7] : List Int))).flatten,
            (([PotInst.base 0, PotInst.base 1]).map
                (fun _ => (["1.0", "3.0"] : List String))).flatten) := by
  have hall : ∀ s ∈ [PotInst.base 0, PotInst.base 1],
      printPotTypeArgCore envW (envW.nameOf s) none s (0+4) false =
        some ([pyPrint [spaces 4, fmt30 "Sub", "7:1.0,3.0"]], "7:1.0,3.0", 1, [7],
              ["1.0", "3.0"]) := by
    intro s hs
    rcases List.mem_cons.mp hs with rfl | hs2
    · rfl
    · rcases List.mem_cons.mp hs2 with rfl | hs3
      · rfl
      · simp at hs3
  refine ⟨hall, ?_⟩
  exact printPotTypeArg_list_concat envW "Combo" 0 false [PotInst.base 0, PotInst.base 1]
    (fun _ => [pyPrint [spaces 4, fmt30 "Sub", "7:1.0,3.0"]]) (fun _ => "7:1.0,3.0")
    (fun _ => 1) (fun _ => [7]) (fun _ => ["1.0", "3.0"]) hall
    (fun s hs => by show ("7:1.0,3.0" : String) ≠ ""; decide)

end GalpyHelp
